import Mathlib

/-!
Verification of the sentinel hybrid routing engine (Rust sources under
`src-tauri/src/`): a shallow embedding of the JSON data model, the
validator (`engine.rs: validate_local_result`), the keyword router
(`engine.rs: local_route`), the module registry (`tools/mod.rs`), the
cloud retry wrapper (`cloud.rs: call_gemini_with_retry`) and the
orchestrator (`engine.rs: HybridEngine::route`), together with theorems
about the specified behaviour.
-/

namespace Sentinel

/-- JSON values as manipulated through serde_json. A number stored as a
machine integer and a number stored as a double are distinguished, mirroring
serde_json, where `as_i64` answers only for the former while `as_f64`
answers for both; doubles are modelled as rationals. -/
inductive Value where
  | null : Value
  | bool : Bool → Value
  | int : Int → Value
  | float : ℚ → Value
  | str : String → Value
  | arr : List Value → Value
  | obj : List (String × Value) → Value

/-- First-match lookup in an association list, the model of map lookup on
`serde_json::Map` / `HashMap` (keys are unique in a real map, so first
match is the match). -/
def lookupStr {α : Type} (l : List (String × α)) (key : String) : Option α :=
  match l with
  | [] => none
  | (k, v) :: rest => if k = key then some v else lookupStr rest key

/-- Model of `serde_json::Value::get` with a string key. -/
def Value.getKey : Value → String → Option Value
  | .obj kvs, key => lookupStr kvs key
  | _, _ => none

/-- Model of `Value::as_str`. -/
def Value.asStr : Value → Option String
  | .str s => some s
  | _ => none

/-- Model of `Value::as_array`. -/
def Value.asArr : Value → Option (List Value)
  | .arr l => some l
  | _ => none

/-- Model of `Value::as_object`. -/
def Value.asObj : Value → Option (List (String × Value))
  | .obj kvs => some kvs
  | _ => none

/-- Model of `Value::as_i64`: only integer-stored numbers answer. -/
def Value.asI64 : Value → Option Int
  | .int z => some z
  | _ => none

/-- Model of `Value::as_f64`: both integer- and double-stored numbers answer. -/
def Value.asF64 : Value → Option ℚ
  | .int z => some (z : ℚ)
  | .float q => some q
  | _ => none

/-- Model of `Value::as_bool`. -/
def Value.asBool : Value → Option Bool
  | .bool b => some b
  | _ => none

/-- Splitter on a character predicate over a character list, accumulating the
current piece; pieces between separator characters are kept, including empty
ones, matching Rust `str::split` with a char-predicate pattern. -/
def splitCharsGo (p : Char → Bool) : List Char → List Char → List (List Char)
  | [], cur => [cur.reverse]
  | c :: rest, cur =>
    if p c then cur.reverse :: splitCharsGo p rest []
    else splitCharsGo p rest (c :: cur)

/-- Model of Rust `str::split` with a char-predicate pattern. -/
def splitStr (p : Char → Bool) (s : String) : List String :=
  (splitCharsGo p s.data []).map (fun cs => String.mk cs)

/-- ASCII lower-casing of a string, the model of `str::to_lowercase` on the
ASCII inputs this development uses. -/
def lowerStr (s : String) : String :=
  String.mk (s.data.map Char.toLower)

/-- Embedding of `engine.rs: extract_words`: lower-case, split on
non-alphanumeric characters, drop empty pieces. -/
def extractWords (s : String) : List String :=
  (splitStr (fun c => !c.isAlphanum) (lowerStr s)).filter (fun w => w ≠ "")

/-- Whitespace trimming at both ends of a character list. -/
def trimChars (cs : List Char) : List Char :=
  ((cs.dropWhile Char.isWhitespace).reverse.dropWhile Char.isWhitespace).reverse

/-- Model of Rust `str::trim`. -/
def strTrim (s : String) : String := String.mk (trimChars s.data)

/-- Embedding of `tools/mod.rs: ToolDefinition`. -/
structure ToolDefinition where
  name : String
  description : String
  parameters : Value

/-- Embedding of `tools/mod.rs: ToolResult`. -/
structure ToolResult where
  success : Bool
  data : Value
  error : Option String

/-- Embedding of the required-argument presence loop of
`engine.rs: validate_local_result` (lines 74-82). -/
def requiredOk (required : Option (List Value)) (args : Value) : Bool :=
  match required with
  | none => true
  | some reqs => reqs.all (fun reqKey =>
      match reqKey.asStr with
      | some key => (args.getKey key).isSome
      | none => true)

/-- Embedding of the per-argument type checks of
`engine.rs: validate_local_result` (lines 87-118): declared strings must be
strings non-empty after trimming; declared integers, when numeric, must be
non-negative; keys absent from the schema properties are skipped. -/
def typeCheckOne (props : List (String × Value)) (key : String) (val : Value) : Bool :=
  match lookupStr props key with
  | none => true
  | some propDef =>
    let propType := ((propDef.getKey "type").bind Value.asStr).getD ""
    let stringOk :=
      if propType = "string" then
        match val.asStr with
        | some s => !(strTrim s = "")
        | none => false
      else true
    let intOk :=
      if propType = "integer" then
        match val.asI64 with
        | some n => decide (0 ≤ n)
        | none =>
          match val.asF64 with
          | some f => decide (0 ≤ f)
          | none => true
      else true
    stringOk && intOk

/-- Embedding of the grounding loop of `engine.rs: validate_local_result`
(lines 120-145): every word of a declared-string argument value must occur
among the words of the user message, and the value must contribute at least
one word; keys absent from the schema properties are skipped. -/
def groundingOne (props : List (String × Value)) (msgWords : List String)
    (key : String) (val : Value) : Bool :=
  match lookupStr props key with
  | none => true
  | some propDef =>
    let propType := ((propDef.getKey "type").bind Value.asStr).getD ""
    if propType = "string" then
      match val.asStr with
      | some s =>
        let valWords := extractWords s
        !valWords.isEmpty && valWords.all (fun w => msgWords.contains w)
      | none => true
    else true

/-- Embedding of the per-call body of `engine.rs: validate_local_result`
(lines 52-148): the call name must be a known tool, required arguments must
be present, and argument objects pass the type and grounding loops. -/
def validateCall (tools : List ToolDefinition) (msgWords : List String)
    (name : String) (args : Value) : Bool :=
  if !(tools.any (fun t => t.name == name)) then false
  else
    match tools.find? (fun t => t.name == name) with
    | none => false
    | some toolDef =>
      let props := (toolDef.parameters.getKey "properties").bind Value.asObj
      let required := (toolDef.parameters.getKey "required").bind Value.asArr
      requiredOk required args &&
      (match args.asObj with
       | none => true
       | some argsObj =>
         match props with
         | none => true
         | some propsObj =>
           argsObj.all (fun kv => typeCheckOne propsObj kv.1 kv.2) &&
           argsObj.all (fun kv => groundingOne propsObj msgWords kv.1 kv.2))

/-- Embedding of `engine.rs: validate_local_result` (lines 37-156).
Confidence, a double in the source, is modelled as a rational. -/
def validateLocalResult (functionCalls : List (String × Value)) (confidence : ℚ)
    (tools : List ToolDefinition) (userMessage : String) : Bool :=
  if functionCalls.isEmpty then false
  else
    let msgWords := extractWords userMessage
    functionCalls.all (fun fc => validateCall tools msgWords fc.1 fc.2) &&
    !(decide (3 ≤ tools.length) && decide (confidence < mkRat 9 10))

/-- Whether `needle` is an initial segment of `hay`, character by character. -/
def charsHavePre : List Char → List Char → Bool
  | [], _ => true
  | _ :: _, [] => false
  | n :: ns, h :: hs => n == h && charsHavePre ns hs

/-- Whether `needle` occurs contiguously inside `hay`. -/
def charsContain : List Char → List Char → Bool
  | [], needle => needle.isEmpty
  | c :: rest, needle => charsHavePre needle (c :: rest) || charsContain rest needle

/-- Model of Rust `str::contains` with a string pattern. -/
def strContainsSub (hay needle : String) : Bool :=
  charsContain hay.data needle.data

/-- Model of Rust `str::split_whitespace`: split on whitespace, drop empty
pieces. -/
def splitWhitespace (s : String) : List String :=
  (splitStr Char.isWhitespace s).filter (fun w => w ≠ "")

/-- The trigger keywords that must not be mistaken for a process name in the
kill branch of `engine.rs: local_route` (lines 410-415). -/
def killTriggerWords : List String :=
  ["kill", "quit", "force", "process", "the", "app", "please"]

/-- Embedding of `engine.rs: HybridEngine::local_route` (lines 388-521), the
keyword cascade. It ignores its tool-list parameter in the source, so the
model takes the input text alone. Confidence doubles are modelled as
rationals. -/
def localRoute (input : String) : String × Value × ℚ :=
  let lower := lowerStr input
  let words := splitWhitespace lower
  let has := fun (keywords : List String) =>
    keywords.any (fun kw => strContainsSub lower kw)
  if has ["kill", "quit", "force"] then
    let processName := words.getLast?.getD "unknown"
    let pname := if killTriggerWords.contains processName then "unknown" else processName
    ("kill_process", Value.obj [("process_name", Value.str pname)], mkRat 85 100)
  else if has ["cache", "clear", "free"] then
    let target :=
      if has ["memory", "ram"] then "memory"
      else if has ["disk", "storage"] then "disk"
      else "both"
    ("clear_caches", Value.obj [("target", Value.str target)], mkRat 85 100)
  else if has ["checkup", "health", "everything", "full"] then
    ("run_full_checkup", Value.obj [], mkRat 9 10)
  else if has ["battery", "power", "charging"] then
    ("diagnose_battery", Value.obj [], mkRat 9 10)
  else if has ["network", "connection", "wifi", "internet"] then
    if has ["broken", "fix", "diagnose", "slow", "issue", "problem"] then
      ("diagnose_network", Value.obj [], mkRat 9 10)
    else
      ("monitor_network", Value.obj [], mkRat 85 100)
  else if has ["startup", "boot", "login"] then
    ("check_startup_items", Value.obj [], mkRat 85 100)
  else if has ["security", "secure", "firewall", "update"] then
    ("check_security", Value.obj [], mkRat 85 100)
  else if has ["cpu", "processor"] then
    ("monitor_cpu", Value.obj [], mkRat 9 10)
  else if has ["slow"] then
    ("monitor_cpu", Value.obj [], mkRat 8 10)
  else if has ["memory", "ram"] then
    ("monitor_memory", Value.obj [], mkRat 9 10)
  else if has ["disk", "storage", "space"] then
    ("monitor_disk", Value.obj [], mkRat 9 10)
  else if has ["vehicle checkup", "car diagnostic", "car checkup"] then
    ("run_vehicle_checkup", Value.obj [], mkRat 9 10)
  else if has ["engine", "obd", "dtc", "rpm"] then
    ("check_engine", Value.obj [], mkRat 85 100)
  else if has ["tire", "tyre", "tread", "psi"] then
    ("check_tires", Value.obj [], mkRat 85 100)
  else if has ["voltage", "cca", "alternator", "car battery"] then
    ("check_battery_vehicle", Value.obj [], mkRat 85 100)
  else if has ["fluid", "oil level", "coolant", "brake fluid", "transmission fluid"] then
    ("check_fluids", Value.obj [], mkRat 85 100)
  else
    ("troubleshoot", Value.obj [("problem", Value.str input)], mkRat 3 10)

/-- Embedding of a `tools/mod.rs: ToolModule` trait object: its name,
description, tool list and execution function. -/
structure Module where
  name : String
  description : String
  tools : List ToolDefinition
  execFn : String → Value → ToolResult

/-- Embedding of `tools/mod.rs: ModuleRegistry`: an ordered module list and a
tool-name index (`HashMap<String, usize>`, modelled as an association
list). -/
structure ModuleRegistry where
  modules : List Module
  toolIndex : List (String × Nat)

/-- Insert-or-replace in an association list, the model of
`HashMap::insert`. -/
def idxInsert {α : Type} (index : List (String × α)) (key : String) (val : α) :
    List (String × α) :=
  match index with
  | [] => [(key, val)]
  | (k, v) :: rest =>
    if k = key then (k, val) :: rest else (k, v) :: idxInsert rest key val

/-- Embedding of the tool-indexing loop of `tools/mod.rs:
ModuleRegistry::register` (lines 58-68). The loop mutates the index in
place, so on a collision the insertions already made are kept; the returned
pair carries the outcome and the (possibly partially mutated) index. In the
source the collision message indexes `self.modules[existing_idx]`, which
panics when that index is out of bounds; the model renders that unreachable
read as the empty module name. -/
def registerLoop (modules : List Module) (modName : String) (idx : Nat) :
    List ToolDefinition → List (String × Nat) → Except String Unit × List (String × Nat)
  | [], index => (Except.ok (), index)
  | t :: rest, index =>
    match lookupStr index t.name with
    | some existingIdx =>
      (Except.error ("Tool '" ++ t.name ++ "' from module '" ++ modName ++
        "' collides with module '" ++
        (((modules.get? existingIdx).map Module.name).getD "") ++ "'"), index)
    | none => registerLoop modules modName idx rest (idxInsert index t.name idx)

/-- Embedding of `tools/mod.rs: ModuleRegistry::register` (lines 56-71).
`register` takes `&mut self`, so the model returns the post-call registry in
both outcomes: on success the module is appended, on failure the module list
is unchanged but the index keeps the insertions made before the collision
was found. -/
def ModuleRegistry.register (r : ModuleRegistry) (m : Module) :
    Except String Unit × ModuleRegistry :=
  match registerLoop r.modules m.name r.modules.length m.tools r.toolIndex with
  | (Except.ok _, newIndex) =>
    (Except.ok (), { modules := r.modules ++ [m], toolIndex := newIndex })
  | (Except.error e, partialIndex) =>
    (Except.error e, { modules := r.modules, toolIndex := partialIndex })

/-- Embedding of `tools/mod.rs: ModuleRegistry::all_tools`. -/
def ModuleRegistry.allTools (r : ModuleRegistry) : List ToolDefinition :=
  (r.modules.map Module.tools).flatten

/-- Embedding of `tools/mod.rs: ModuleRegistry::has_tool`. -/
def ModuleRegistry.hasTool (r : ModuleRegistry) (toolName : String) : Bool :=
  (lookupStr r.toolIndex toolName).isSome

/-- Embedding of `tools/mod.rs: ModuleRegistry::execute`. The source indexes
`self.modules[idx]`, which panics when the index is dangling; the model
renders that read as a distinguishable failure result. -/
def ModuleRegistry.execute (r : ModuleRegistry) (toolName : String) (args : Value) :
    ToolResult :=
  match lookupStr r.toolIndex toolName with
  | some idx =>
    match r.modules.get? idx with
    | some m => m.execFn toolName args
    | none => ⟨false, Value.null, some "panic: index out of bounds"⟩
  | none => ⟨false, Value.null, some ("Unknown tool: " ++ toolName)⟩

/-- Embedding of `tools/mod.rs: ModuleRegistry::module_tools`. -/
def ModuleRegistry.moduleTools (r : ModuleRegistry) (moduleName : String) :
    List ToolDefinition :=
  ((r.modules.filter (fun m => m.name == moduleName)).map Module.tools).flatten

/-- Embedding of `tools/mod.rs: ModuleRegistry::tool_belongs_to_module`. As
in `execute`, a dangling index (a panic in the source) is modelled as a
negative answer. -/
def ModuleRegistry.toolBelongsToModule (r : ModuleRegistry)
    (toolName moduleName : String) : Bool :=
  match lookupStr r.toolIndex toolName with
  | some idx =>
    match r.modules.get? idx with
    | some m => m.name == moduleName
    | none => false
  | none => false

/-- Embedding of `cloud.rs: CloudFunctionCall`. -/
structure CloudFunctionCall where
  name : String
  arguments : Value

/-- Embedding of `cloud.rs: CloudResult`. The wall-clock `total_time_ms`
field is not modelled. -/
structure CloudResult where
  functionCalls : List CloudFunctionCall

/-- The observable behaviour of one run of the retry loop in
`cloud.rs: call_gemini_with_retry`: the returned value, the number of
`call_gemini` invocations made, and the backoff sleeps performed, in order,
in milliseconds. -/
structure RetryTrace where
  result : Option CloudResult
  attempts : Nat
  sleepsMs : List Nat

/-- The availability behaviour of one `cloud.rs: call_gemini` invocation
(lines 119-126): the call returns nothing when `GEMINI_API_KEY` is unset or
set to the empty string; otherwise the network outcome of the k-th
invocation is the opaque capability's business, abstracted as `net`. The
environment variable is modelled as `Option String`. -/
def callGeminiAvail (env : Option String) (net : Nat → Option CloudResult)
    (k : Nat) : Option CloudResult :=
  match env with
  | none => none
  | some key => if key = "" then none else net k

/-- Embedding of the loop of `cloud.rs: call_gemini_with_retry` (lines
205-221), from loop counter `attempt` on, with `remaining` the number of
loop iterations still to run (`maxRetries - attempt`; the loop is
`for attempt in 0..max_retries`). A failed attempt aborts with no retry when
the environment variable is absent (`std::env::var(..).is_err()`); otherwise
every failed attempt with `attempt < max_retries - 1` is followed by a sleep
of `1000 * (attempt + 1)` milliseconds. -/
def retryGo (env : Option String) (net : Nat → Option CloudResult)
    (maxRetries : Nat) : Nat → Nat → RetryTrace
  | 0, attempt => ⟨none, attempt, []⟩
  | remaining + 1, attempt =>
    match callGeminiAvail env net attempt with
    | some r => ⟨some r, attempt + 1, []⟩
    | none =>
      if env.isNone then ⟨none, attempt + 1, []⟩
      else if attempt < maxRetries - 1 then
        let rest := retryGo env net maxRetries remaining (attempt + 1)
        ⟨rest.result, rest.attempts, 1000 * (attempt + 1) :: rest.sleepsMs⟩
      else ⟨none, attempt + 1, []⟩

/-- Embedding of `cloud.rs: call_gemini_with_retry` (lines 200-223). -/
def callGeminiWithRetry (env : Option String) (net : Nat → Option CloudResult)
    (maxRetries : Nat) : RetryTrace :=
  retryGo env net maxRetries maxRetries 0

/-- Embedding of `engine.rs: RouteResult`. The wall-clock `latency_ms`
field is not modelled. -/
structure RouteResult where
  toolName : String
  arguments : Value
  source : String
  confidence : ℚ
  toolResult : Option ToolResult

/-- One run of `engine.rs: HybridEngine::route` together with whether the
cloud capability was invoked (i.e. whether control reached the
`call_gemini_with_retry` call of step 3). -/
structure RouteOutcome where
  result : RouteResult
  cloudInvoked : Bool

/-- The tool universe selected at the top of `engine.rs:
HybridEngine::route` (lines 290-293). -/
def scopedTools (r : ModuleRegistry) (moduleFilter : Option String) :
    List ToolDefinition :=
  match moduleFilter with
  | some name => r.moduleTools name
  | none => r.allTools

/-- The `tool_allowed` closure of `engine.rs: HybridEngine::route`
(lines 296-301). -/
def toolAllowedB (r : ModuleRegistry) (moduleFilter : Option String)
    (name : String) : Bool :=
  match moduleFilter with
  | some m => r.toolBelongsToModule name m
  | none => r.hasTool name

/-- The temperature ladder of `engine.rs: cactus_route_with_retries`
(line 266). -/
def temperatureLadder : List ℚ := [0, mkRat 3 10, mkRat 7 10]

/-- The inner loop of `engine.rs: cactus_route_with_retries` (lines
268-274) over a list of temperatures: the first capability outcome that
passes validation wins. The opaque on-device capability (model handle, FFI
call and reply parsing of `cactus_route_at_temp`) is abstracted as `oracle`,
giving the parsed calls and confidence produced at each temperature, or
nothing on any capability-level failure. -/
def firstValidAttempt (oracle : ℚ → Option (List (String × Value) × ℚ))
    (tools : List ToolDefinition) (input : String) :
    List ℚ → Option (List (String × Value) × ℚ)
  | [] => none
  | temp :: rest =>
    match oracle temp with
    | some (calls, confidence) =>
      if validateLocalResult calls confidence tools input then some (calls, confidence)
      else firstValidAttempt oracle tools input rest
    | none => firstValidAttempt oracle tools input rest

/-- Embedding of `engine.rs: HybridEngine::cactus_route_with_retries`
(lines 261-277). -/
def cactusRouteWithRetries (oracle : ℚ → Option (List (String × Value) × ℚ))
    (tools : List ToolDefinition) (input : String) :
    Option (List (String × Value) × ℚ) :=
  firstValidAttempt oracle tools input temperatureLadder

/-- The `requires_cloud` flag read from a tool result in step 1 of
`engine.rs: HybridEngine::route` (lines 309-313). -/
def requiresCloudFlag (result : ToolResult) : Bool :=
  ((result.data.getKey "requires_cloud").bind Value.asBool).getD false

/-- Step 4 of `engine.rs: HybridEngine::route` (lines 367-382): return the
keyword guess un-executed, tagged as cloud fallback, inserting a
`no_api_key` marker into the arguments when the credential environment
variable is absent (insertion applies only when the arguments are an
object, as with `as_object_mut`). -/
def routeStep4 (env : Option String) (kwName : String) (kwArgs : Value)
    (kwConf : ℚ) : RouteOutcome :=
  let finalArgs :=
    if env.isNone then
      match kwArgs with
      | Value.obj kvs => Value.obj (idxInsert kvs "no_api_key" (Value.bool true))
      | other => other
    else kwArgs
  ⟨⟨kwName, finalArgs, "cloud (fallback)", kwConf, none⟩, true⟩

/-- Step 3 of `engine.rs: HybridEngine::route` (lines 347-365): invoke the
cloud retry wrapper with 3 attempts; execute and return the first returned
call when its tool is allowed, else fall to step 4. Reaching this function
is what `cloudInvoked` records. -/
def routeStep3 (r : ModuleRegistry) (env : Option String)
    (net : Nat → Option CloudResult) (moduleFilter : Option String)
    (kwName : String) (kwArgs : Value) (kwConf : ℚ) : RouteOutcome :=
  match (callGeminiWithRetry env net 3).result with
  | some cloudResult =>
    match cloudResult.functionCalls with
    | fc :: _ =>
      if toolAllowedB r moduleFilter fc.name then
        ⟨⟨fc.name, fc.arguments, "cloud (fallback)", 1,
          some (r.execute fc.name fc.arguments)⟩, true⟩
      else routeStep4 env kwName kwArgs kwConf
    | [] => routeStep4 env kwName kwArgs kwConf
  | none => routeStep4 env kwName kwArgs kwConf

/-- Step 2 of `engine.rs: HybridEngine::route` (lines 331-344): the keyword
guess is executed and returned when its confidence exceeds 0.5 and its tool
is allowed, else control falls to step 3. -/
def routeStep2 (r : ModuleRegistry) (env : Option String)
    (net : Nat → Option CloudResult) (input : String)
    (moduleFilter : Option String) : RouteOutcome :=
  let kw := localRoute input
  let kwName := kw.1
  let kwArgs := kw.2.1
  let kwConf := kw.2.2
  if kwConf > mkRat 1 2 ∧ toolAllowedB r moduleFilter kwName then
    ⟨⟨kwName, kwArgs, "on-device", kwConf, some (r.execute kwName kwArgs)⟩, false⟩
  else routeStep3 r env net moduleFilter kwName kwArgs kwConf

/-- Embedding of `engine.rs: HybridEngine::route` (lines 288-383). The
on-device capability is abstracted as `oracle` (see `firstValidAttempt`),
the cloud network as `net`, and the `GEMINI_API_KEY` variable as `env`. -/
def route (r : ModuleRegistry) (oracle : ℚ → Option (List (String × Value) × ℚ))
    (env : Option String) (net : Nat → Option CloudResult)
    (input : String) (moduleFilter : Option String) : RouteOutcome :=
  let tools := scopedTools r moduleFilter
  match cactusRouteWithRetries oracle tools input with
  | some (calls, confidence) =>
    match calls with
    | (name, args) :: _ =>
      if toolAllowedB r moduleFilter name then
        let result := r.execute name args
        if !requiresCloudFlag result then
          ⟨⟨name, args, "on-device", confidence, some result⟩, false⟩
        else routeStep2 r env net input moduleFilter
      else routeStep2 r env net input moduleFilter
    | [] => routeStep2 r env net input moduleFilter
  | none => routeStep2 r env net input moduleFilter

/-- Acceptance of stage 1 (on-device) of the route chain: the validated
on-device result exists, its first call names an allowed tool, and executing
that tool does not raise the `requires_cloud` escalation flag. -/
def stage1Accepts (r : ModuleRegistry)
    (oracle : ℚ → Option (List (String × Value) × ℚ)) (input : String)
    (moduleFilter : Option String) : Bool :=
  match cactusRouteWithRetries oracle (scopedTools r moduleFilter) input with
  | some (calls, _) =>
    match calls with
    | (name, args) :: _ =>
      toolAllowedB r moduleFilter name && !requiresCloudFlag (r.execute name args)
    | [] => false
  | none => false

/-- Acceptance of stage 2 (keyword heuristic): confidence above 0.5 and the
guessed tool allowed under the scope. -/
def stage2Accepts (r : ModuleRegistry) (input : String)
    (moduleFilter : Option String) : Bool :=
  let kw := localRoute input
  decide (kw.2.2 > mkRat 1 2) && toolAllowedB r moduleFilter kw.1

/-- Acceptance of stage 3 (cloud): the retry wrapper returns a result whose
first call names an allowed tool. -/
def stage3Accepts (r : ModuleRegistry) (env : Option String)
    (net : Nat → Option CloudResult) (moduleFilter : Option String) : Bool :=
  match (callGeminiWithRetry env net 3).result with
  | some cloudResult =>
    match cloudResult.functionCalls with
    | fc :: _ => toolAllowedB r moduleFilter fc.name
    | [] => false
  | none => false

/-! ### Concrete fixtures used by witnesses and counterexamples -/

/-- A parameter schema with no properties and no required names, the shape
most tools in `tools/mac_troubleshoot.rs` declare. -/
def trivialParams : Value :=
  Value.obj [("type", Value.str "object"), ("properties", Value.obj []),
    ("required", Value.arr [])]

/-- A tool execution function that always succeeds with a null payload. -/
def dummyExec : String → Value → ToolResult := fun _ _ => ⟨true, Value.null, none⟩

/-- Fixture tool named `x`. -/
def toolX : ToolDefinition := ⟨"x", "tool x", trivialParams⟩

/-- Fixture tool named `y`. -/
def toolY : ToolDefinition := ⟨"y", "tool y", trivialParams⟩

/-- Fixture module owning tool `x`. -/
def moduleA : Module := ⟨"modA", "first module", [toolX], dummyExec⟩

/-- Fixture module owning tools `y` and `x`; its `x` collides with
`moduleA`. -/
def moduleB : Module := ⟨"modB", "second module", [toolY, toolX], dummyExec⟩

/-- The registry produced by `ModuleRegistry::new`. -/
def emptyRegistry : ModuleRegistry := ⟨[], []⟩

/-- The registry after successfully registering `moduleA`. -/
def regAfterA : ModuleRegistry := (emptyRegistry.register moduleA).2

/-- Outcome and post-state of the colliding registration of `moduleB`. -/
def regBOutcome : Except String Unit × ModuleRegistry := regAfterA.register moduleB

/-- Schema of a fixture tool with one integer-declared argument `count`
(required). -/
def countParams : Value :=
  Value.obj [("type", Value.str "object"),
    ("properties", Value.obj [("count", Value.obj [("type", Value.str "integer"),
      ("description", Value.str "how many")])]),
    ("required", Value.arr [Value.str "count"])]

/-- Fixture tool with one integer-declared argument. -/
def toolCount : ToolDefinition := ⟨"set_count", "set a count", countParams⟩

/-- Mirror of the `kill_process` schema declared in
`tools/mac_troubleshoot.rs` (lines 64-76): one required string argument
`process_name`. -/
def killParams : Value :=
  Value.obj [("type", Value.str "object"),
    ("properties", Value.obj [("process_name", Value.obj [("type", Value.str "string"),
      ("description", Value.str "Name of the process to kill")])]),
    ("required", Value.arr [Value.str "process_name"])]

/-- Mirror of the `kill_process` tool definition. -/
def killTool : ToolDefinition := ⟨"kill_process", "Force-kill a process by name", killParams⟩

/-- A universe of three schema-trivial tools, for exercising the
tool-count-dependent confidence gate. -/
def threeTools : List ToolDefinition :=
  [⟨"t1", "tool one", trivialParams⟩, ⟨"t2", "tool two", trivialParams⟩,
   ⟨"t3", "tool three", trivialParams⟩]

/-- Mirror of the `troubleshoot` schema declared in
`tools/mac_troubleshoot.rs` (lines 107-119): one required string argument
`problem`. -/
def troubleshootParams : Value :=
  Value.obj [("type", Value.str "object"),
    ("properties", Value.obj [("problem", Value.obj [("type", Value.str "string"),
      ("description", Value.str "Description of the problem")])]),
    ("required", Value.arr [Value.str "problem"])]

/-- Mirror of the `troubleshoot` tool definition. -/
def troubleshootTool : ToolDefinition :=
  ⟨"troubleshoot", "General troubleshooting", troubleshootParams⟩

/-- Mirror of the `troubleshoot` execution in `tools/mac_troubleshoot.rs`
(lines 629-643): a successful result whose payload carries
`requires_cloud: true`. -/
def troubleshootExec : String → Value → ToolResult := fun _ args =>
  ⟨true, Value.obj [("requires_cloud", Value.bool true),
    ("problem", Value.str (((args.getKey "problem").bind Value.asStr).getD "unspecified"))],
   none⟩

/-- Fixture module owning only the `troubleshoot` tool. -/
def troubleshootModule : Module :=
  ⟨"mac_troubleshoot", "macOS diagnostics", [troubleshootTool], troubleshootExec⟩

/-- Registry holding only `troubleshootModule`. -/
def troubleshootReg : ModuleRegistry := (emptyRegistry.register troubleshootModule).2

/-- The literal fallback query used in the repository's own tests. -/
def purpleInput : String := "why is my screen purple?"

/-- A Validator-accepted call set for `purpleInput` over the
`troubleshoot`-only universe. -/
def purpleCalls : List (String × Value) :=
  [("troubleshoot", Value.obj [("problem", Value.str purpleInput)])]

/-- Fixture module owning only `kill_process`, with a benign execution
function. -/
def killModule : Module := ⟨"mac_troubleshoot", "macOS diagnostics", [killTool], dummyExec⟩

/-- Registry holding only `killModule`. -/
def killReg : ModuleRegistry := (emptyRegistry.register killModule).2

/-! ### Shared helper lemmas -/

/-- Equation form of `Value.asObj` on an object. -/
theorem Value.asObj_obj (kvs : List (String × Value)) :
    (Value.obj kvs).asObj = some kvs := rfl

/-- One failing per-call check makes the whole validator reject. -/
theorem validate_false_of_call_fail (functionCalls : List (String × Value))
    (confidence : ℚ) (tools : List ToolDefinition) (userMessage : String)
    (c : String × Value) (hc : c ∈ functionCalls)
    (hfail : validateCall tools (extractWords userMessage) c.1 c.2 = false) :
    validateLocalResult functionCalls confidence tools userMessage = false := by
  have hne : functionCalls.isEmpty = false := by
    cases functionCalls with
    | nil => cases hc
    | cons a l => rfl
  have hall : functionCalls.all
      (fun fc => validateCall tools (extractWords userMessage) fc.1 fc.2) = false :=
    List.all_eq_false.mpr ⟨c, hc, by simp [hfail]⟩
  simp only [validateLocalResult, hne, Bool.false_eq_true, if_false, hall,
    Bool.false_and]

/-- A failing type check on one supplied argument fails that call. -/
theorem validateCall_false_of_typeCheck (tools : List ToolDefinition)
    (msgWords : List String) (name : String) (kvs : List (String × Value))
    (toolDef : ToolDefinition) (propsObj : List (String × Value))
    (key : String) (v : Value)
    (hfind : tools.find? (fun t => t.name == name) = some toolDef)
    (hprops : (toolDef.parameters.getKey "properties").bind Value.asObj = some propsObj)
    (hkv : (key, v) ∈ kvs)
    (hfail : typeCheckOne propsObj key v = false) :
    validateCall tools msgWords name (Value.obj kvs) = false := by
  have hp : (toolDef.name == name) = true :=
    @List.find?_some _ (fun t => t.name == name) toolDef tools hfind
  have hany : tools.any (fun t => t.name == name) = true :=
    List.any_eq_true.mpr ⟨toolDef, List.mem_of_find?_eq_some hfind, hp⟩
  have hall : kvs.all (fun kv => typeCheckOne propsObj kv.1 kv.2) = false :=
    List.all_eq_false.mpr ⟨(key, v), hkv, by simp [hfail]⟩
  simp only [validateCall, hany, Bool.not_true, Bool.false_eq_true, if_false,
    Value.asObj_obj, hfind]
  rw [hprops]
  simp [hall]

/-- A failing grounding check on one supplied argument fails that call. -/
theorem validateCall_false_of_grounding (tools : List ToolDefinition)
    (msgWords : List String) (name : String) (kvs : List (String × Value))
    (toolDef : ToolDefinition) (propsObj : List (String × Value))
    (key : String) (v : Value)
    (hfind : tools.find? (fun t => t.name == name) = some toolDef)
    (hprops : (toolDef.parameters.getKey "properties").bind Value.asObj = some propsObj)
    (hkv : (key, v) ∈ kvs)
    (hfail : groundingOne propsObj msgWords key v = false) :
    validateCall tools msgWords name (Value.obj kvs) = false := by
  have hp : (toolDef.name == name) = true :=
    @List.find?_some _ (fun t => t.name == name) toolDef tools hfind
  have hany : tools.any (fun t => t.name == name) = true :=
    List.any_eq_true.mpr ⟨toolDef, List.mem_of_find?_eq_some hfind, hp⟩
  have hall : kvs.all (fun kv => groundingOne propsObj msgWords kv.1 kv.2) = false :=
    List.all_eq_false.mpr ⟨(key, v), hkv, by simp [hfail]⟩
  simp only [validateCall, hany, Bool.not_true, Bool.false_eq_true, if_false,
    Value.asObj_obj, hfind]
  rw [hprops]
  simp [hall]

/-! ### C1 — registry registration atomicity -/

/-- C1 (code bug in the source): registering `moduleB` (tools `y`, `x`)
into a registry already owning `x` does return an error naming both the
attempted module (`modB`) and the pre-existing owner (`modA`), but the
registry state is NOT the state before the call: the failed registration
leaves `y` in the tool-name index (so `has_tool("y")` flips to true) mapped
to module slot 1 of a 1-module list, and a subsequent `execute("y")` hits
the out-of-bounds indexing that panics in the source. -/
theorem register_collision_not_atomic :
    regBOutcome.1 = Except.error "Tool 'x' from module 'modB' collides with module 'modA'" ∧
    regAfterA.hasTool "y" = false ∧
    regBOutcome.2.hasTool "y" = true ∧
    regBOutcome.2.modules.length = 1 ∧
    lookupStr regBOutcome.2.toolIndex "y" = some 1 ∧
    (regBOutcome.2.execute "y" (Value.obj [])).error = some "panic: index out of bounds" :=
  ⟨rfl, rfl, rfl, rfl, rfl, rfl⟩

/-! ### C2 — integer argument validation -/

/-- C2 counterexample: the claim says a non-numeric value (string or
boolean) supplied for an integer-declared argument makes the validator
return false; in the code the integer check silently passes any
non-numeric value, so both calls are accepted. -/
theorem validator_integer_nonnumeric_accepted :
    validateLocalResult [("set_count", Value.obj [("count", Value.str "hello")])] 1
      [toolCount] "set the count" = true ∧
    validateLocalResult [("set_count", Value.obj [("count", Value.bool true)])] 1
      [toolCount] "set the count" = true :=
  ⟨rfl, rfl⟩

/-- C2 (amended): only negative numeric values of an integer-declared
argument are rejected; a negative integer-stored or double-stored value
makes `validate_local_result` return false, while non-numeric values pass
the integer check unexamined. -/
theorem validator_integer_negative_rejected
    (functionCalls : List (String × Value)) (confidence : ℚ)
    (tools : List ToolDefinition) (userMessage : String)
    (callName : String) (kvs : List (String × Value)) (key : String) (v : Value)
    (toolDef : ToolDefinition) (propsObj : List (String × Value)) (propDef : Value)
    (hcall : (callName, Value.obj kvs) ∈ functionCalls)
    (hkv : (key, v) ∈ kvs)
    (hfind : tools.find? (fun t => t.name == callName) = some toolDef)
    (hprops : (toolDef.parameters.getKey "properties").bind Value.asObj = some propsObj)
    (hdef : lookupStr propsObj key = some propDef)
    (htype : ((propDef.getKey "type").bind Value.asStr).getD "" = "integer")
    (hneg : (∃ z : Int, v = Value.int z ∧ z < 0) ∨ (∃ q : ℚ, v = Value.float q ∧ q < 0)) :
    validateLocalResult functionCalls confidence tools userMessage = false := by
  apply validate_false_of_call_fail _ _ _ _ _ hcall
  apply validateCall_false_of_typeCheck _ _ _ _ _ _ _ _ hfind hprops hkv
  rcases hneg with ⟨z, rfl, hz⟩ | ⟨q, rfl, hq⟩
  · have hd : decide ((0 : Int) ≤ z) = false := decide_eq_false (not_le.mpr hz)
    simp only [typeCheckOne, hdef, htype, Value.asI64, hd]
    simp
  · have hd : decide ((0 : ℚ) ≤ q) = false := decide_eq_false (not_le.mpr hq)
    simp only [typeCheckOne, hdef, htype, Value.asI64, Value.asF64, hd]
    simp

/-- Witness for `validator_integer_negative_rejected` at a concrete
negative integer input. -/
theorem validator_integer_negative_rejected_witness :
    validateLocalResult [("set_count", Value.obj [("count", Value.int (-1))])] 1
      [toolCount] "set the count" = false := by
  apply validator_integer_negative_rejected
    [("set_count", Value.obj [("count", Value.int (-1))])] 1 [toolCount]
    "set the count" "set_count" [("count", Value.int (-1))] "count"
    (Value.int (-1)) toolCount
    [("count", Value.obj [("type", Value.str "integer"),
      ("description", Value.str "how many")])]
    (Value.obj [("type", Value.str "integer"), ("description", Value.str "how many")])
    (List.mem_singleton.mpr rfl) (List.mem_singleton.mpr rfl) rfl rfl rfl rfl
    (Or.inl ⟨-1, rfl, by norm_num⟩)

/-! ### C8 — keyword router literal cases -/

/-- C8: the keyword router satisfies the four literal cases: a cpu query
routes to `monitor_cpu` with empty arguments and confidence above 0.8
(`mkRat 8 10`); "kill
Safari" routes to `kill_process` with `process_name` "safari" at 0.85
(`mkRat 85 100`); "clear disk cache" routes to `clear_caches` with target
"disk" at 0.85; and the unmatched query falls back to `troubleshoot`
carrying the original text with confidence below 0.5. -/
theorem localRoute_literal_cases :
    ((localRoute "my cpu is on fire").1 = "monitor_cpu" ∧
      (localRoute "my cpu is on fire").2.1 = Value.obj [] ∧
      mkRat 8 10 < (localRoute "my cpu is on fire").2.2) ∧
    localRoute "kill Safari" =
      ("kill_process", Value.obj [("process_name", Value.str "safari")], mkRat 85 100) ∧
    localRoute "clear disk cache" =
      ("clear_caches", Value.obj [("target", Value.str "disk")], mkRat 85 100) ∧
    ((localRoute "why is my screen purple?").1 = "troubleshoot" ∧
      (localRoute "why is my screen purple?").2.1 =
        Value.obj [("problem", Value.str "why is my screen purple?")] ∧
      (localRoute "why is my screen purple?").2.2 < mkRat 1 2) := by
  refine ⟨⟨rfl, rfl, ?_⟩, rfl, rfl, rfl, rfl, ?_⟩
  · show mkRat 8 10 < mkRat 9 10
    decide
  · show mkRat 3 10 < mkRat 1 2
    decide

/-! ### C3 — the confidence gate -/

/-- C3: with a universe of 3 or more tools the validator rejects any result
whose confidence is below 0.9 (`mkRat 9 10`), accepts at exactly 0.9 when
every per-call check passes, and with fewer than 3 tools the confidence
value does not influence the outcome at all. -/
theorem validator_confidence_gate (calls : List (String × Value))
    (tools : List ToolDefinition) (msg : String) :
    (∀ confidence : ℚ, calls ≠ [] → 3 ≤ tools.length → confidence < mkRat 9 10 →
      validateLocalResult calls confidence tools msg = false) ∧
    (calls ≠ [] →
      calls.all (fun fc => validateCall tools (extractWords msg) fc.1 fc.2) = true →
      validateLocalResult calls (mkRat 9 10) tools msg = true) ∧
    (tools.length < 3 → ∀ c1 c2 : ℚ,
      validateLocalResult calls c1 tools msg = validateLocalResult calls c2 tools msg) := by
  refine ⟨?_, ?_, ?_⟩
  · intro confidence _ h3 hlt
    have hg : (decide (3 ≤ tools.length) && decide (confidence < mkRat 9 10)) = true := by
      simp [h3, hlt]
    cases calls with
    | nil => rfl
    | cons a l =>
      simp only [validateLocalResult, List.isEmpty_cons, Bool.false_eq_true, if_false,
        hg, Bool.not_true, Bool.and_false]
  · intro hne hall
    cases calls with
    | nil => exact absurd rfl hne
    | cons a l =>
      have hg : (decide (3 ≤ tools.length) && decide (mkRat 9 10 < mkRat 9 10)) = false := by
        simp
      simp only [validateLocalResult, List.isEmpty_cons, Bool.false_eq_true, if_false,
        hall, hg, Bool.not_false, Bool.and_true]
  · intro h3 c1 c2
    have hg : decide (3 ≤ tools.length) = false := decide_eq_false (by omega)
    cases calls with
    | nil => rfl
    | cons a l =>
      simp only [validateLocalResult, List.isEmpty_cons, Bool.false_eq_true, if_false,
        hg, Bool.false_and, Bool.not_false, Bool.and_true]

/-- Witness for `validator_confidence_gate`: with three tools and an
otherwise-valid singleton call, confidence 0.89 is rejected and 0.90 is
accepted. -/
theorem validator_confidence_gate_witness :
    validateLocalResult [("t1", Value.obj [])] (mkRat 89 100) threeTools "hi" = false ∧
    validateLocalResult [("t1", Value.obj [])] (mkRat 9 10) threeTools "hi" = true := by
  constructor
  · exact (validator_confidence_gate [("t1", Value.obj [])] threeTools "hi").1
      (mkRat 89 100) (by simp) (by decide) (by decide)
  · exact (validator_confidence_gate [("t1", Value.obj [])] threeTools "hi").2.1
      (by simp) rfl

/-! ### C4 — grounding of string arguments -/

/-- C4: a string value supplied for a string-declared argument whose
lower-cased alphanumeric token set is empty, or contains a token that does
not occur among the identically computed tokens of the user text, makes the
validator reject; and the literal cases hold: value "Safari" is accepted
against "kill safari please" and rejected against "kill chrome". -/
theorem validator_grounding :
    (∀ (functionCalls : List (String × Value)) (confidence : ℚ)
       (tools : List ToolDefinition) (userMessage callName : String)
       (kvs : List (String × Value)) (key s : String)
       (toolDef : ToolDefinition) (propsObj : List (String × Value)) (propDef : Value),
       (callName, Value.obj kvs) ∈ functionCalls →
       (key, Value.str s) ∈ kvs →
       tools.find? (fun t => t.name == callName) = some toolDef →
       (toolDef.parameters.getKey "properties").bind Value.asObj = some propsObj →
       lookupStr propsObj key = some propDef →
       ((propDef.getKey "type").bind Value.asStr).getD "" = "string" →
       (extractWords s = [] ∨ ∃ w ∈ extractWords s, w ∉ extractWords userMessage) →
       validateLocalResult functionCalls confidence tools userMessage = false) ∧
    validateLocalResult [("kill_process", Value.obj [("process_name", Value.str "Safari")])]
      1 [killTool] "kill safari please" = true ∧
    validateLocalResult [("kill_process", Value.obj [("process_name", Value.str "Safari")])]
      1 [killTool] "kill chrome" = false := by
  refine ⟨?_, rfl, rfl⟩
  intro functionCalls confidence tools userMessage callName kvs key s toolDef propsObj
    propDef hcall hkv hfind hprops hdef htype hbad
  apply validate_false_of_call_fail _ _ _ _ _ hcall
  apply validateCall_false_of_grounding _ _ _ _ _ _ _ _ hfind hprops hkv
  simp only [groundingOne, hdef]
  rw [htype, if_pos rfl]
  rcases hbad with hemp | ⟨w, hw, hnotin⟩
  · simp [Value.asStr, hemp]
  · have hall : (extractWords s).all
        (fun w => (extractWords userMessage).contains w) = false :=
      List.all_eq_false.mpr ⟨w, hw, by simp [hnotin]⟩
    simp [Value.asStr, hall]
    exact fun _ => ⟨w, hw, hnotin⟩

/-- Witness for the general part of `validator_grounding`: value "Firefox"
against user text "kill safari please" is rejected. -/
theorem validator_grounding_witness :
    validateLocalResult [("kill_process", Value.obj [("process_name", Value.str "Firefox")])]
      1 [killTool] "kill safari please" = false :=
  validator_grounding.1
    [("kill_process", Value.obj [("process_name", Value.str "Firefox")])] 1 [killTool]
    "kill safari please" "kill_process" [("process_name", Value.str "Firefox")]
    "process_name" "Firefox" killTool
    [("process_name", Value.obj [("type", Value.str "string"),
      ("description", Value.str "Name of the process to kill")])]
    (Value.obj [("type", Value.str "string"),
      ("description", Value.str "Name of the process to kill")])
    (List.mem_singleton.mpr rfl) (List.mem_singleton.mpr rfl) rfl rfl rfl rfl
    (Or.inr ⟨"firefox", by decide, by decide⟩)

/-! ### C10 — undeclared argument keys are exempt from checks -/

/-- Lookup distributes over an appended association list. -/
theorem lookupStr_append {α : Type} (l1 l2 : List (String × α)) (k : String) :
    lookupStr (l1 ++ l2) k = ((lookupStr l1 k).orElse (fun _ => lookupStr l2 k)) := by
  induction l1 with
  | nil => simp [lookupStr]
  | cons p rest ih =>
    obtain ⟨k2, v2⟩ := p
    by_cases h : k2 = k
    · simp [lookupStr, h]
    · simp [lookupStr, h, ih]

/-- Appending an extra argument pair preserves required-argument presence. -/
theorem requiredOk_append (required : Option (List Value))
    (kvs : List (String × Value)) (p : String × Value)
    (h : requiredOk required (Value.obj kvs) = true) :
    requiredOk required (Value.obj (kvs ++ [p])) = true := by
  cases required with
  | none => rfl
  | some reqs =>
    rw [requiredOk, List.all_eq_true] at h ⊢
    intro x hx
    have hx2 := h x hx
    cases hstr : x.asStr with
    | none => simp [hstr]
    | some k =>
      simp only [hstr] at hx2 ⊢
      simp only [Value.getKey] at hx2 ⊢
      rw [lookupStr_append]
      cases hl : lookupStr kvs k with
      | none => rw [hl] at hx2; simp at hx2
      | some v => simp [hl]

/-- Appending an argument pair whose key is not declared among the matched
tool's schema properties preserves per-call acceptance: the added key is
skipped by both the type and the grounding loop. -/
theorem validateCall_append_undeclared (tools : List ToolDefinition)
    (msgWords : List String) (callName : String) (kvs : List (String × Value))
    (key : String) (v : Value) (toolDef : ToolDefinition)
    (hfind : tools.find? (fun t => t.name == callName) = some toolDef)
    (hundecl : ∀ propsObj,
      (toolDef.parameters.getKey "properties").bind Value.asObj = some propsObj →
      lookupStr propsObj key = none)
    (h : validateCall tools msgWords callName (Value.obj kvs) = true) :
    validateCall tools msgWords callName (Value.obj (kvs ++ [(key, v)])) = true := by
  have hp : (toolDef.name == callName) = true :=
    @List.find?_some _ (fun t => t.name == callName) toolDef tools hfind
  have hany : tools.any (fun t => t.name == callName) = true :=
    List.any_eq_true.mpr ⟨toolDef, List.mem_of_find?_eq_some hfind, hp⟩
  simp only [validateCall, hany, Bool.not_true, Bool.false_eq_true, if_false,
    Value.asObj_obj, hfind] at h ⊢
  cases hpr : (toolDef.parameters.getKey "properties").bind Value.asObj with
  | none =>
    rw [hpr] at h
    simp only [Bool.and_true] at h ⊢
    exact requiredOk_append _ _ _ h
  | some propsObj =>
    rw [hpr] at h
    have hud := hundecl propsObj hpr
    have ht : typeCheckOne propsObj key v = true := by simp [typeCheckOne, hud]
    have hg : groundingOne propsObj msgWords key v = true := by
      simp [groundingOne, hud]
    simp only [Bool.and_eq_true] at h
    obtain ⟨hreq, hta, hga⟩ := h
    simp only [Bool.and_eq_true, List.all_append, List.all_cons, List.all_nil]
    exact ⟨requiredOk_append _ _ _ hreq, ⟨by simp [hta, ht], by simp [hga, hg]⟩⟩

/-- C10: a call may carry an argument key that is absent from the matched
tool's schema properties: no type check and no grounding check applies to
that key's value, so appending an arbitrary such pair to an accepted call
list keeps the validator accepting. -/
theorem validator_undeclared_arg_unchecked
    (pre post : List (String × Value)) (confidence : ℚ) (tools : List ToolDefinition)
    (userMessage callName : String) (kvs : List (String × Value)) (key : String)
    (v : Value) (toolDef : ToolDefinition)
    (hfind : tools.find? (fun t => t.name == callName) = some toolDef)
    (hundecl : ∀ propsObj,
      (toolDef.parameters.getKey "properties").bind Value.asObj = some propsObj →
      lookupStr propsObj key = none)
    (hbase : validateLocalResult (pre ++ (callName, Value.obj kvs) :: post)
      confidence tools userMessage = true) :
    validateLocalResult (pre ++ (callName, Value.obj (kvs ++ [(key, v)])) :: post)
      confidence tools userMessage = true := by
  have hne1 : (pre ++ (callName, Value.obj kvs) :: post).isEmpty = false := by simp
  have hne2 : (pre ++ (callName, Value.obj (kvs ++ [(key, v)])) :: post).isEmpty = false := by
    simp
  simp only [validateLocalResult, hne1, Bool.false_eq_true, if_false,
    Bool.and_eq_true, List.all_append, List.all_cons] at hbase
  simp only [validateLocalResult, hne2, Bool.false_eq_true, if_false,
    Bool.and_eq_true, List.all_append, List.all_cons]
  obtain ⟨⟨hpre, hmid, hpost⟩, hgate⟩ := hbase
  exact ⟨⟨hpre, validateCall_append_undeclared _ _ _ _ _ _ _ hfind hundecl hmid, hpost⟩,
    hgate⟩

/-- Witness for `validator_undeclared_arg_unchecked`: a call with the
declared `count` argument plus an undeclared, ungrounded string key `junk`
still validates. -/
theorem validator_undeclared_arg_unchecked_witness :
    validateLocalResult
      [("set_count", Value.obj [("count", Value.int 5), ("junk", Value.str "zzzzz")])]
      1 [toolCount] "set the count" = true := by
  have h := validator_undeclared_arg_unchecked [] [] 1 [toolCount] "set the count"
    "set_count" [("count", Value.int 5)] "junk" (Value.str "zzzzz") toolCount rfl
    (fun propsObj hp => by
      have hp2 : some [("count", Value.obj [("type", Value.str "integer"),
          ("description", Value.str "how many")])] = some propsObj := hp
      injection hp2 with hp3
      rw [← hp3]
      rfl)
    rfl
  exact h

/-! ### C6 and C9 — the cloud retry wrapper -/

/-- Characterization of the retry loop under a configured non-empty
credential, from loop counter `attempt` with `remaining` iterations left:
at most `maxRetries` attempts in total, failed attempt `j` (except the
last) is followed by a sleep of `1000 * (j + 1)` ms, the first network
success is returned as-is, and a `none` outcome means every attempt in
range failed. -/
theorem retryGo_spec (key : String) (hkey : key ≠ "") (net : Nat → Option CloudResult)
    (m : Nat) :
    ∀ remaining attempt, remaining + attempt = m →
    (retryGo (some key) net m remaining attempt).attempts ≤ m ∧
    attempt ≤ (retryGo (some key) net m remaining attempt).attempts ∧
    (0 < remaining → attempt < (retryGo (some key) net m remaining attempt).attempts) ∧
    (retryGo (some key) net m remaining attempt).sleepsMs =
      (List.range ((retryGo (some key) net m remaining attempt).attempts - 1 - attempt)).map
        (fun k => 1000 * (attempt + k + 1)) ∧
    (∀ res, (retryGo (some key) net m remaining attempt).result = some res →
      net ((retryGo (some key) net m remaining attempt).attempts - 1) = some res ∧
      ∀ j, attempt ≤ j → j < (retryGo (some key) net m remaining attempt).attempts - 1 →
        net j = none) ∧
    ((retryGo (some key) net m remaining attempt).result = none →
      ∀ j, attempt ≤ j → j < m → net j = none) := by
  intro remaining
  induction remaining with
  | zero =>
    intro attempt hinv
    have heq : retryGo (some key) net m 0 attempt = ⟨none, attempt, []⟩ := rfl
    rw [heq]
    dsimp only
    refine ⟨by omega, le_refl _, by omega, by simp, ?_, ?_⟩
    · intro res hres; exact absurd hres (by simp)
    · intro _ j h1 h2; omega
  | succ remaining ih =>
    intro attempt hinv
    have havail : callGeminiAvail (some key) net attempt = net attempt := by
      simp [callGeminiAvail, hkey]
    cases hnet : net attempt with
    | some r =>
      have heq : retryGo (some key) net m (remaining + 1) attempt =
          ⟨some r, attempt + 1, []⟩ := by
        simp [retryGo, havail, hnet]
      rw [heq]
      dsimp only
      refine ⟨by omega, by omega, fun _ => by omega, by simp, ?_, ?_⟩
      · intro res hres
        obtain rfl : r = res := by simpa using hres
        refine ⟨by simpa using hnet, ?_⟩
        intro j h1 h2; omega
      · intro hres; exact absurd hres (by simp)
    | none =>
      by_cases hlt : attempt < m - 1
      · have hrem : 0 < remaining := by omega
        have heq : retryGo (some key) net m (remaining + 1) attempt =
            ⟨(retryGo (some key) net m remaining (attempt + 1)).result,
             (retryGo (some key) net m remaining (attempt + 1)).attempts,
             1000 * (attempt + 1) ::
               (retryGo (some key) net m remaining (attempt + 1)).sleepsMs⟩ := by
          simp [retryGo, havail, hnet, Option.isNone, hlt]
        obtain ⟨ih1, ih2, ih3, ih4, ih5, ih6⟩ := ih (attempt + 1) (by omega)
        have hA : attempt + 1 < (retryGo (some key) net m remaining (attempt + 1)).attempts :=
          ih3 hrem
        rw [heq]
        dsimp only
        refine ⟨ih1, by omega, fun _ => by omega, ?_, ?_, ?_⟩
        · rw [ih4]
          have hn : (retryGo (some key) net m remaining (attempt + 1)).attempts - 1 - attempt =
              ((retryGo (some key) net m remaining (attempt + 1)).attempts - 1 -
                (attempt + 1)) + 1 := by
            omega
          rw [hn, List.range_succ_eq_map, List.map_cons, List.map_map]
          refine List.cons_eq_cons.mpr ⟨by norm_num, ?_⟩
          apply List.map_congr_left
          intro k _
          simp only [Function.comp_apply]
          omega
        · intro res hres
          obtain ⟨hh1, hh2⟩ := ih5 res hres
          refine ⟨hh1, ?_⟩
          intro j h1 h2
          rcases Nat.eq_or_lt_of_le h1 with rfl | hgt
          · exact hnet
          · exact hh2 j (by omega) h2
        · intro hres j h1 h2
          rcases Nat.eq_or_lt_of_le h1 with rfl | hgt
          · exact hnet
          · exact ih6 hres j (by omega) h2
      · have heq : retryGo (some key) net m (remaining + 1) attempt =
            ⟨none, attempt + 1, []⟩ := by
          simp [retryGo, havail, hnet, Option.isNone, hlt]
        rw [heq]
        dsimp only
        refine ⟨by omega, by omega, fun _ => by omega, by simp, ?_, ?_⟩
        · intro res hres; exact absurd hres (by simp)
        · intro _ j h1 h2
          have hj : j = attempt := by omega
          subst hj; exact hnet

/-- C6: when no credential is configured the retry wrapper returns no
result after the single probing call, with no retry and no backoff sleep;
otherwise (credential configured and non-empty) it makes at most
`maxRetries` attempts, failed attempt `k` (counting from 0, except the
last) is followed by a sleep of `1000 * (k + 1)` ms — linearly increasing
backoff — the first network success is returned as-is, and a `none`
outcome means every attempt failed. -/
theorem cloud_retry_spec (net : Nat → Option CloudResult) (maxRetries : Nat)
    (hpos : 0 < maxRetries) :
    callGeminiWithRetry none net maxRetries = ⟨none, 1, []⟩ ∧
    (∀ key : String, key ≠ "" →
      (callGeminiWithRetry (some key) net maxRetries).attempts ≤ maxRetries ∧
      (callGeminiWithRetry (some key) net maxRetries).sleepsMs =
        (List.range ((callGeminiWithRetry (some key) net maxRetries).attempts - 1)).map
          (fun k => 1000 * (k + 1)) ∧
      (∀ res, (callGeminiWithRetry (some key) net maxRetries).result = some res →
        net ((callGeminiWithRetry (some key) net maxRetries).attempts - 1) = some res ∧
        ∀ j < (callGeminiWithRetry (some key) net maxRetries).attempts - 1, net j = none) ∧
      ((callGeminiWithRetry (some key) net maxRetries).result = none →
        ∀ j < maxRetries, net j = none)) := by
  constructor
  · cases maxRetries with
    | zero => omega
    | succ r => rfl
  · intro key hkey
    simp only [callGeminiWithRetry]
    obtain ⟨h1, h2, h3, h4, h5, h6⟩ :=
      retryGo_spec key hkey net maxRetries maxRetries 0 (by omega)
    refine ⟨h1, ?_, ?_, ?_⟩
    · rw [h4]
      simp
    · intro res hres
      obtain ⟨hh1, hh2⟩ := h5 res hres
      exact ⟨hh1, fun j hj => hh2 j (by omega) hj⟩
    · intro hres j hj
      exact h6 hres j (by omega) hj

/-- Witness for `cloud_retry_spec`: the unconfigured case aborts after one
probe, and a configured key keeps attempts within the bound. -/
theorem cloud_retry_spec_witness :
    callGeminiWithRetry none (fun _ => none) 3 = ⟨none, 1, []⟩ ∧
    (callGeminiWithRetry (some "k") (fun _ => none) 3).attempts ≤ 3 := by
  refine ⟨(cloud_retry_spec (fun _ => none) 3 (by norm_num)).1, ?_⟩
  exact ((cloud_retry_spec (fun _ => none) 3 (by norm_num)).2 "k" (by decide)).1

/-- With the credential set to the empty string, `call_gemini` is always
unavailable but the loop iterates to exhaustion: the resulting trace makes
all `m` attempts with the full backoff sleep sequence. -/
theorem retryGo_empty_key (net : Nat → Option CloudResult) (m : Nat) :
    ∀ remaining attempt, remaining + attempt = m → 0 < remaining →
    retryGo (some "") net m remaining attempt =
      ⟨none, m, (List.range (m - 1 - attempt)).map (fun k => 1000 * (attempt + k + 1))⟩ := by
  intro remaining
  induction remaining with
  | zero => intro attempt _ h0; exact absurd h0 (lt_irrefl 0)
  | succ remaining ih =>
    intro attempt hinv _
    have havail : callGeminiAvail (some "") net attempt = none := rfl
    by_cases hlt : attempt < m - 1
    · have heq : retryGo (some "") net m (remaining + 1) attempt =
          ⟨(retryGo (some "") net m remaining (attempt + 1)).result,
           (retryGo (some "") net m remaining (attempt + 1)).attempts,
           1000 * (attempt + 1) ::
             (retryGo (some "") net m remaining (attempt + 1)).sleepsMs⟩ := by
        simp [retryGo, havail, Option.isNone, hlt]
      rw [heq, ih (attempt + 1) (by omega) (by omega)]
      dsimp only
      have hn : m - 1 - attempt = (m - 1 - (attempt + 1)) + 1 := by omega
      rw [hn, List.range_succ_eq_map, List.map_cons, List.map_map]
      refine congrArg (RetryTrace.mk none m) ?_
      refine List.cons_eq_cons.mpr ⟨by norm_num, ?_⟩
      apply List.map_congr_left
      intro k _
      simp only [Function.comp_apply]
      omega
    · have heq : retryGo (some "") net m (remaining + 1) attempt =
          ⟨none, attempt + 1, []⟩ := by
        simp [retryGo, havail, Option.isNone, hlt]
      rw [heq]
      have hm : attempt + 1 = m := by omega
      rw [hm, show m - 1 - attempt = 0 from by omega]
      rfl

/-- C9: with `GEMINI_API_KEY` set to the empty string, every single
`call_gemini` invocation reports unavailability, yet the retry wrapper does
not short-circuit: it runs all `maxRetries` attempts with backoff sleeps
`1000 * 1, ..., 1000 * (maxRetries - 1)` ms, because the no-retry check
tests only that the variable exists. -/
theorem cloud_retry_empty_key_no_short_circuit (net : Nat → Option CloudResult)
    (maxRetries : Nat) (hpos : 0 < maxRetries) :
    (∀ k, callGeminiAvail (some "") net k = none) ∧
    callGeminiWithRetry (some "") net maxRetries =
      ⟨none, maxRetries, (List.range (maxRetries - 1)).map (fun k => 1000 * (k + 1))⟩ := by
  refine ⟨fun k => rfl, ?_⟩
  have h := retryGo_empty_key net maxRetries maxRetries 0 (by omega) hpos
  simp only [callGeminiWithRetry]
  rw [h]
  simp

/-- Witness for `cloud_retry_empty_key_no_short_circuit` at three attempts:
all three run, with sleeps of 1000 and 2000 ms. -/
theorem cloud_retry_empty_key_witness :
    callGeminiWithRetry (some "") (fun _ => none) 3 = ⟨none, 3, [1000, 2000]⟩ := by
  rw [(cloud_retry_empty_key_no_short_circuit (fun _ => none) 3 (by norm_num)).2]
  rfl

/-! ### C5 — on-device short-circuiting of the cloud stage -/

/-- C5 counterexample: the on-device capability (a constant oracle) always
returns a Validator-accepted result naming the in-scope `troubleshoot`
tool, yet the route run invokes the cloud capability, because the executed
tool's own result payload carries `requires_cloud: true` and the engine
falls through to the later stages. -/
theorem route_cloud_invoked_despite_accepting_oracle :
    validateLocalResult purpleCalls (mkRat 95 100) (scopedTools troubleshootReg none)
      purpleInput = true ∧
    toolAllowedB troubleshootReg none "troubleshoot" = true ∧
    (route troubleshootReg (fun _ => some (purpleCalls, mkRat 95 100)) none
      (fun _ => none) purpleInput none).cloudInvoked = true :=
  ⟨rfl, rfl, rfl⟩

/-- C5 (amended): if at every rung of the temperature ladder the on-device
capability returns a result that the Validator accepts, whose first call
names a tool allowed under the scope, and whose execution result does not
carry the `requires_cloud` escalation flag, then the route returns the
on-device decision and the cloud capability is never invoked. -/
theorem route_on_device_short_circuit (r : ModuleRegistry)
    (oracle : ℚ → Option (List (String × Value) × ℚ)) (env : Option String)
    (net : Nat → Option CloudResult) (input : String) (moduleFilter : Option String)
    (haccept : ∀ temp ∈ temperatureLadder, ∃ calls confidence name args rest,
      oracle temp = some (calls, confidence) ∧
      validateLocalResult calls confidence (scopedTools r moduleFilter) input = true ∧
      calls = (name, args) :: rest ∧
      toolAllowedB r moduleFilter name = true ∧
      requiresCloudFlag (r.execute name args) = false) :
    (route r oracle env net input moduleFilter).cloudInvoked = false ∧
    (route r oracle env net input moduleFilter).result.source = "on-device" ∧
    (route r oracle env net input moduleFilter).result.toolResult ≠ none := by
  obtain ⟨calls, confidence, name, args, rest, ho, hv, hc, ha, hnc⟩ :=
    haccept 0 (by simp [temperatureLadder])
  have hcactus : cactusRouteWithRetries oracle (scopedTools r moduleFilter) input =
      some (calls, confidence) := by
    simp only [cactusRouteWithRetries, temperatureLadder, firstValidAttempt, ho, hv]
    simp
  subst hc
  simp only [route, hcactus, ha, hnc]
  simp

/-- Witness for `route_on_device_short_circuit`: a registry owning only
`kill_process` with a benign execution function and an oracle constantly
proposing a grounded kill call — the cloud stage is never reached. -/
theorem route_on_device_short_circuit_witness :
    (route killReg
      (fun _ => some ([("kill_process", Value.obj [("process_name", Value.str "safari")])], 1))
      none (fun _ => none) "kill safari please" none).cloudInvoked = false :=
  (route_on_device_short_circuit killReg
    (fun _ => some ([("kill_process", Value.obj [("process_name", Value.str "safari")])], 1))
    none (fun _ => none) "kill safari please" none
    (fun _ _ => ⟨[("kill_process", Value.obj [("process_name", Value.str "safari")])], 1,
      "kill_process", Value.obj [("process_name", Value.str "safari")], [],
      rfl, rfl, rfl, rfl, rfl⟩)).1

/-! ### C7 — the exhausted-fallback decision -/

/-- Insert-or-replace makes the inserted key visible. -/
theorem lookup_idxInsert_self {α : Type} (l : List (String × α)) (k : String) (v : α) :
    lookupStr (idxInsert l k v) k = some v := by
  induction l with
  | nil => simp [idxInsert, lookupStr]
  | cons p rest ih =>
    obtain ⟨k2, v2⟩ := p
    by_cases h : k2 = k
    · simp [idxInsert, h, lookupStr]
    · simp [idxInsert, h, lookupStr, ih]

/-- Insert-or-replace leaves other keys untouched. -/
theorem lookup_idxInsert_ne {α : Type} (l : List (String × α)) (k k2 : String) (v : α)
    (h : k2 ≠ k) : lookupStr (idxInsert l k v) k2 = lookupStr l k2 := by
  have hne : k ≠ k2 := fun hh => h hh.symm
  induction l with
  | nil => simp [idxInsert, lookupStr, hne]
  | cons p rest ih =>
    obtain ⟨k3, v3⟩ := p
    by_cases h3 : k3 = k
    · subst h3
      simp [idxInsert, lookupStr, hne]
    · by_cases h4 : k3 = k2
      · subst h4
        simp [idxInsert, lookupStr, h3]
      · simp [idxInsert, lookupStr, h3, h4, ih]

/-- Case analysis on an if-then-else under an arbitrary predicate. -/
theorem iteCases {α : Type} {c : Prop} [Decidable c] {a b : α} (P : α → Prop)
    (ha : c → P a) (hb : ¬c → P b) : P (if c then a else b) := by
  by_cases h : c
  · rw [if_pos h]; exact ha h
  · rw [if_neg h]; exact hb h

set_option maxHeartbeats 2000000 in
/-- Case principle for the keyword router: every result is one of the
eighteen literal branch shapes. -/
theorem localRoute_cases (P : String × Value × ℚ → Prop) (input : String)
    (hkill : ∀ pname, P ("kill_process",
      Value.obj [("process_name", Value.str pname)], mkRat 85 100))
    (hclear : ∀ target, P ("clear_caches",
      Value.obj [("target", Value.str target)], mkRat 85 100))
    (hfull : P ("run_full_checkup", Value.obj [], mkRat 9 10))
    (hbat : P ("diagnose_battery", Value.obj [], mkRat 9 10))
    (hdnet : P ("diagnose_network", Value.obj [], mkRat 9 10))
    (hmnet : P ("monitor_network", Value.obj [], mkRat 85 100))
    (hstart : P ("check_startup_items", Value.obj [], mkRat 85 100))
    (hsec : P ("check_security", Value.obj [], mkRat 85 100))
    (hcpu : P ("monitor_cpu", Value.obj [], mkRat 9 10))
    (hslow : P ("monitor_cpu", Value.obj [], mkRat 8 10))
    (hmem : P ("monitor_memory", Value.obj [], mkRat 9 10))
    (hdisk : P ("monitor_disk", Value.obj [], mkRat 9 10))
    (hveh : P ("run_vehicle_checkup", Value.obj [], mkRat 9 10))
    (heng : P ("check_engine", Value.obj [], mkRat 85 100))
    (htire : P ("check_tires", Value.obj [], mkRat 85 100))
    (hcarbat : P ("check_battery_vehicle", Value.obj [], mkRat 85 100))
    (hfluid : P ("check_fluids", Value.obj [], mkRat 85 100))
    (hfb : P ("troubleshoot", Value.obj [("problem", Value.str input)], mkRat 3 10)) :
    P (localRoute input) := by
  unfold localRoute
  dsimp only
  refine iteCases _ (fun _ => hkill _) (fun _ => ?_)
  refine iteCases _ (fun _ => hclear _) (fun _ => ?_)
  refine iteCases _ (fun _ => hfull) (fun _ => ?_)
  refine iteCases _ (fun _ => hbat) (fun _ => ?_)
  refine iteCases _ (fun _ => iteCases _ (fun _ => hdnet) (fun _ => hmnet)) (fun _ => ?_)
  refine iteCases _ (fun _ => hstart) (fun _ => ?_)
  refine iteCases _ (fun _ => hsec) (fun _ => ?_)
  refine iteCases _ (fun _ => hcpu) (fun _ => ?_)
  refine iteCases _ (fun _ => hslow) (fun _ => ?_)
  refine iteCases _ (fun _ => hmem) (fun _ => ?_)
  refine iteCases _ (fun _ => hdisk) (fun _ => ?_)
  refine iteCases _ (fun _ => hveh) (fun _ => ?_)
  refine iteCases _ (fun _ => heng) (fun _ => ?_)
  refine iteCases _ (fun _ => htire) (fun _ => ?_)
  refine iteCases _ (fun _ => hcarbat) (fun _ => ?_)
  exact iteCases _ (fun _ => hfluid) (fun _ => hfb)

set_option maxHeartbeats 2000000 in
/-- Every branch of the keyword router returns object arguments without a
`no_api_key` key. -/
theorem localRoute_args_obj (input : String) :
    ∃ kvs, (localRoute input).2.1 = Value.obj kvs ∧ lookupStr kvs "no_api_key" = none := by
  apply localRoute_cases
    (fun res => ∃ kvs, res.2.1 = Value.obj kvs ∧ lookupStr kvs "no_api_key" = none)
  all_goals first | (intro x; exact ⟨_, rfl, rfl⟩) | exact ⟨_, rfl, rfl⟩

/-- Step 4 never carries a tool result. -/
theorem routeStep4_toolResult (env : Option String) (kwName : String) (kwArgs : Value)
    (kwConf : ℚ) : (routeStep4 env kwName kwArgs kwConf).result.toolResult = none := by
  unfold routeStep4
  cases env <;> rfl

/-- Step 3 yields no tool result exactly when stage 3 does not accept. -/
theorem routeStep3_toolResult (r : ModuleRegistry) (env : Option String)
    (net : Nat → Option CloudResult) (moduleFilter : Option String)
    (kwName : String) (kwArgs : Value) (kwConf : ℚ) :
    ((routeStep3 r env net moduleFilter kwName kwArgs kwConf).result.toolResult = none ↔
      stage3Accepts r env net moduleFilter = false) := by
  cases h : (callGeminiWithRetry env net 3).result with
  | none => simp [routeStep3, stage3Accepts, h, routeStep4_toolResult]
  | some cr =>
    cases hfc : cr.functionCalls with
    | nil => simp [routeStep3, stage3Accepts, h, hfc, routeStep4_toolResult]
    | cons fc tl =>
      by_cases ha : toolAllowedB r moduleFilter fc.name = true
      · simp [routeStep3, stage3Accepts, h, hfc, ha]
      · have ha2 : toolAllowedB r moduleFilter fc.name = false := by
          simpa using ha
        simp [routeStep3, stage3Accepts, h, hfc, ha2, routeStep4_toolResult]

/-- Step 2 yields no tool result exactly when stages 2 and 3 both fail to
accept. -/
theorem routeStep2_toolResult (r : ModuleRegistry) (env : Option String)
    (net : Nat → Option CloudResult) (input : String) (moduleFilter : Option String) :
    ((routeStep2 r env net input moduleFilter).result.toolResult = none ↔
      stage2Accepts r input moduleFilter = false ∧
      stage3Accepts r env net moduleFilter = false) := by
  by_cases hc : ((localRoute input).2.2 > mkRat 1 2 ∧
      toolAllowedB r moduleFilter (localRoute input).1 = true)
  · have h2 : stage2Accepts r input moduleFilter = true := by
      simp [stage2Accepts, hc.1, hc.2]
    simp [routeStep2, hc, h2]
  · have h2 : stage2Accepts r input moduleFilter = false := by
      rcases not_and_or.mp hc with h | h
      · simp [stage2Accepts, decide_eq_false h]
      · simp [stage2Accepts, (Bool.not_eq_true _).mp h]
    simp [routeStep2, hc, h2, routeStep3_toolResult]

/-- A route run yields no tool result exactly when all three stages fail to
accept. -/
theorem route_toolResult_none_iff (r : ModuleRegistry)
    (oracle : ℚ → Option (List (String × Value) × ℚ)) (env : Option String)
    (net : Nat → Option CloudResult) (input : String) (moduleFilter : Option String) :
    ((route r oracle env net input moduleFilter).result.toolResult = none ↔
      stage1Accepts r oracle input moduleFilter = false ∧
      stage2Accepts r input moduleFilter = false ∧
      stage3Accepts r env net moduleFilter = false) := by
  cases h : cactusRouteWithRetries oracle (scopedTools r moduleFilter) input with
  | none => simp [route, stage1Accepts, h, routeStep2_toolResult]
  | some p =>
    obtain ⟨calls, confidence⟩ := p
    cases hcalls : calls with
    | nil => simp [route, stage1Accepts, h, hcalls, routeStep2_toolResult]
    | cons nc tlc =>
      obtain ⟨name, args⟩ := nc
      by_cases ha : toolAllowedB r moduleFilter name = true
      · by_cases hrc : requiresCloudFlag (r.execute name args) = true
        · simp [route, stage1Accepts, h, hcalls, ha, hrc, routeStep2_toolResult]
        · have hrc2 : requiresCloudFlag (r.execute name args) = false := by
            simpa using hrc
          simp [route, stage1Accepts, h, hcalls, ha, hrc2]
      · have ha2 : toolAllowedB r moduleFilter name = false := by
          simpa using ha
        simp [route, stage1Accepts, h, hcalls, ha2, routeStep2_toolResult]

/-- A step-3 run without a tool result is the step-4 decision. -/
theorem routeStep3_none_eq_step4 (r : ModuleRegistry) (env : Option String)
    (net : Nat → Option CloudResult) (moduleFilter : Option String)
    (kwName : String) (kwArgs : Value) (kwConf : ℚ)
    (h : (routeStep3 r env net moduleFilter kwName kwArgs kwConf).result.toolResult = none) :
    routeStep3 r env net moduleFilter kwName kwArgs kwConf =
      routeStep4 env kwName kwArgs kwConf := by
  cases hres : (callGeminiWithRetry env net 3).result with
  | none => simp [routeStep3, hres]
  | some cr =>
    cases hfc : cr.functionCalls with
    | nil => simp [routeStep3, hres, hfc]
    | cons fc tl =>
      by_cases ha : toolAllowedB r moduleFilter fc.name = true
      · exact absurd h (by simp [routeStep3, hres, hfc, ha])
      · have ha2 : toolAllowedB r moduleFilter fc.name = false := by
          simpa using ha
        simp [routeStep3, hres, hfc, ha2]

/-- A step-2 run without a tool result is the step-4 decision built from
the keyword guess. -/
theorem routeStep2_none_eq_step4 (r : ModuleRegistry) (env : Option String)
    (net : Nat → Option CloudResult) (input : String) (moduleFilter : Option String)
    (h : (routeStep2 r env net input moduleFilter).result.toolResult = none) :
    routeStep2 r env net input moduleFilter =
      routeStep4 env (localRoute input).1 (localRoute input).2.1 (localRoute input).2.2 := by
  by_cases hc : ((localRoute input).2.2 > mkRat 1 2 ∧
      toolAllowedB r moduleFilter (localRoute input).1 = true)
  · exact absurd h (by simp [routeStep2, hc])
  · have h3 : (routeStep3 r env net moduleFilter (localRoute input).1
        (localRoute input).2.1 (localRoute input).2.2).result.toolResult = none := by
      rw [← h]
      simp [routeStep2, hc]
    rw [routeStep2, if_neg hc]
    exact routeStep3_none_eq_step4 _ _ _ _ _ _ _ h3

/-- A route run without a tool result is exactly the step-4 decision built
from the keyword guess. -/
theorem route_none_eq_step4 (r : ModuleRegistry)
    (oracle : ℚ → Option (List (String × Value) × ℚ)) (env : Option String)
    (net : Nat → Option CloudResult) (input : String) (moduleFilter : Option String)
    (h : (route r oracle env net input moduleFilter).result.toolResult = none) :
    route r oracle env net input moduleFilter =
      routeStep4 env (localRoute input).1 (localRoute input).2.1 (localRoute input).2.2 := by
  cases hcac : cactusRouteWithRetries oracle (scopedTools r moduleFilter) input with
  | none =>
    have h2 : (routeStep2 r env net input moduleFilter).result.toolResult = none := by
      rw [← h]; simp [route, hcac]
    rw [route]
    rw [hcac]
    exact routeStep2_none_eq_step4 _ _ _ _ _ h2
  | some p =>
    obtain ⟨calls, confidence⟩ := p
    cases hcalls : calls with
    | nil =>
      have h2 : (routeStep2 r env net input moduleFilter).result.toolResult = none := by
        rw [← h]; simp [route, hcac, hcalls]
      rw [route, hcac, hcalls]
      exact routeStep2_none_eq_step4 _ _ _ _ _ h2
    | cons nc tlc =>
      obtain ⟨name, args⟩ := nc
      by_cases ha : toolAllowedB r moduleFilter name = true
      · by_cases hrc : requiresCloudFlag (r.execute name args) = true
        · have h2 : (routeStep2 r env net input moduleFilter).result.toolResult = none := by
            rw [← h]; simp [route, hcac, hcalls, ha, hrc]
          rw [route, hcac, hcalls]
          simp only [ha, if_true, hrc]
          simp only [Bool.not_true, Bool.false_eq_true, if_false]
          exact routeStep2_none_eq_step4 _ _ _ _ _ h2
        · exact absurd h (by
            have hrc2 : requiresCloudFlag (r.execute name args) = false := by
              simpa using hrc
            simp [route, hcac, hcalls, ha, hrc2])
      · have ha2 : toolAllowedB r moduleFilter name = false := by
          simpa using ha
        have h2 : (routeStep2 r env net input moduleFilter).result.toolResult = none := by
          rw [← h]; simp [route, hcac, hcalls, ha2]
        rw [route, hcac, hcalls]
        simp only [ha2, Bool.false_eq_true, if_false]
        exact routeStep2_none_eq_step4 _ _ _ _ _ h2

/-- When the keyword arguments are an object without a `no_api_key` key,
the step-4 decision carries that annotation exactly when the credential
variable is absent. -/
theorem routeStep4_flag (env : Option String) (kwName : String) (kwArgs : Value)
    (kwConf : ℚ) (kvs : List (String × Value))
    (hobj : kwArgs = Value.obj kvs) (hnk : lookupStr kvs "no_api_key" = none) :
    (((routeStep4 env kwName kwArgs kwConf).result.arguments.getKey "no_api_key" =
        some (Value.bool true)) ↔ env = none) := by
  subst hobj
  cases env with
  | none => simp [routeStep4, Value.getKey, lookup_idxInsert_self]
  | some key => simp [routeStep4, Value.getKey, hnk]

/-- Step 4 preserves every keyword-argument key other than `no_api_key`. -/
theorem routeStep4_preserves (env : Option String) (kwName : String) (kwArgs : Value)
    (kwConf : ℚ) (kvs : List (String × Value)) (k : String)
    (hobj : kwArgs = Value.obj kvs) (hk : k ≠ "no_api_key") :
    (routeStep4 env kwName kwArgs kwConf).result.arguments.getKey k =
      kwArgs.getKey k := by
  subst hobj
  cases env with
  | none => simp [routeStep4, Value.getKey, lookup_idxInsert_ne _ _ _ _ hk]
  | some key => simp [routeStep4]

/-- C7: the routed decision carries no tool result exactly when all three
earlier stages failed to accept; in that case the decision is the heuristic
guess un-executed — same tool name and confidence as `local_route`, source
tagged "cloud (fallback)", the arguments annotated with a `no_api_key`
flag exactly when the credential variable is absent, and every other
argument key carried over unchanged. -/
theorem route_exhausted_fallback (r : ModuleRegistry)
    (oracle : ℚ → Option (List (String × Value) × ℚ)) (env : Option String)
    (net : Nat → Option CloudResult) (input : String) (moduleFilter : Option String) :
    ((route r oracle env net input moduleFilter).result.toolResult = none ↔
      stage1Accepts r oracle input moduleFilter = false ∧
      stage2Accepts r input moduleFilter = false ∧
      stage3Accepts r env net moduleFilter = false) ∧
    ((route r oracle env net input moduleFilter).result.toolResult = none →
      (route r oracle env net input moduleFilter).result.toolName = (localRoute input).1 ∧
      (route r oracle env net input moduleFilter).result.confidence =
        (localRoute input).2.2 ∧
      (route r oracle env net input moduleFilter).result.source = "cloud (fallback)" ∧
      (route r oracle env net input moduleFilter).cloudInvoked = true ∧
      (((route r oracle env net input moduleFilter).result.arguments.getKey "no_api_key" =
          some (Value.bool true)) ↔ env = none) ∧
      (∀ k, k ≠ "no_api_key" →
        (route r oracle env net input moduleFilter).result.arguments.getKey k =
          (localRoute input).2.1.getKey k)) := by
  refine ⟨route_toolResult_none_iff r oracle env net input moduleFilter, ?_⟩
  intro h
  rw [route_none_eq_step4 r oracle env net input moduleFilter h]
  obtain ⟨kvs, hobj, hnk⟩ := localRoute_args_obj input
  refine ⟨?_, ?_, ?_, ?_, routeStep4_flag _ _ _ _ _ hobj hnk, ?_⟩
  · cases env <;> rfl
  · cases env <;> rfl
  · cases env <;> rfl
  · cases env <;> rfl
  · intro k hk
    exact routeStep4_preserves _ _ _ _ _ _ hobj hk

/-- Witness for `route_exhausted_fallback`: an empty registry, a silent
oracle and no credential; the fallback decision carries no tool result and
the `no_api_key` annotation is present. -/
theorem route_exhausted_fallback_witness :
    (route emptyRegistry (fun _ => none) none (fun _ => none) "hello there"
      none).result.toolResult = none ∧
    (route emptyRegistry (fun _ => none) none (fun _ => none) "hello there"
      none).result.arguments.getKey "no_api_key" = some (Value.bool true) := by
  have h := (route_exhausted_fallback emptyRegistry (fun _ => none) none
    (fun _ => none) "hello there" none).2 rfl
  exact ⟨rfl, h.2.2.2.2.1.mpr rfl⟩

end Sentinel
